import Mathlib

/-!
Shallow embedding of the changeset classification and report rendering
engine of `src/index.js` (functions `generateActionReport` and
`generatePRReport`), together with theorems about its behaviour.

Optional JavaScript object fields are modelled as `Option`; a field read
that would make the JavaScript code throw a `TypeError` (reading `.length`
of `undefined`) is modelled by returning `none` from the embedded
function.  String lengths are modelled by `String.length`.
-/

namespace CfnReporter

/-- Embeds the `Target` object of a property change detail
(`detail.Target` in `src/index.js`): fields `Name`, `Attribute`,
`RequiresRecreation`. -/
structure Target where
  Name : String
  Attribute : String
  RequiresRecreation : String
deriving DecidableEq, Repr

/-- Embeds one element of `resource.Details`: fields `Evaluation`,
`Target` and `ChangeSource` as read by the renderers. -/
structure Detail where
  Evaluation : String
  Target : Target
  ChangeSource : String
deriving DecidableEq, Repr

/-- Embeds `change.ResourceChange`.  `Action`, `Replacement` and
`Details` are optional in the AWS response, hence `Option`. -/
structure ResourceChange where
  LogicalResourceId : String
  ResourceType : String
  Action : Option String
  Replacement : Option String
  Details : Option (List Detail)
deriving DecidableEq, Repr

/-- Embeds one element of `changeset.Changes`. -/
structure Change where
  ResourceChange : ResourceChange
deriving DecidableEq, Repr

/-- Embeds the changeset record fields read by the two report
generators. -/
structure Changeset where
  StackName : String
  ChangeSetName : String
  Status : String
  ExecutionStatus : Option String
  Changes : Option (List Change)
deriving DecidableEq, Repr

/-- JavaScript template-literal stringification of a possibly absent
string: `undefined` interpolates as the text "undefined". -/
def jsStr : Option String → String
  | some s => s
  | none => "undefined"

/-- Embeds `resource.Replacement === 'True' || resource.Replacement ===
'Conditional'` (line 233 / 467 of `src/index.js`). -/
def needsReplacement (r : ResourceChange) : Bool :=
  r.Replacement == some "True" || r.Replacement == some "Conditional"

/-- Embeds `resource.Action === 'Add'` (line 234 / 468). -/
def isAdd (r : ResourceChange) : Bool :=
  r.Action == some "Add"

/-- Embeds `resource.Action === 'Remove'` (line 235 / 469). -/
def isRemove (r : ResourceChange) : Bool :=
  r.Action == some "Remove"

/-- One entry pushed into a replacement group:
`{ index: i+1, resource, change }` (lines 241, 244, 247, 250). -/
structure GroupEntry where
  index : Nat
  resource : ResourceChange
  change : Change
deriving DecidableEq, Repr

/-- The `replacementGroups` object of `generateActionReport` /
`generatePRReport`: the four keys `Will be replaced`,
`Modified without replacement`, `New resources`, `Removed resources`. -/
structure Grouped where
  willBeReplaced : List GroupEntry
  modifiedWithoutReplacement : List GroupEntry
  newResources : List GroupEntry
  removedResources : List GroupEntry
deriving DecidableEq, Repr

/-- Embeds the classification pass of `generateActionReport`
(`changes.forEach` at lines 231-255): each change, carrying its 1-based
index, is appended to exactly one group by the if / else-if chain
`isRemove` / `needsReplacement` / `isAdd` / else.  The forEach that
appends at the tail is rendered as structural recursion consing the head
entry onto the groups computed for the tail, which yields the same
lists.  The first argument is the 0-based index of the head change. -/
def classify : Nat → List Change → Grouped
  | _, [] => ⟨[], [], [], []⟩
  | i, change :: rest =>
    let g := classify (i + 1) rest
    let resource := change.ResourceChange
    if isRemove resource then
      { g with removedResources := ⟨i + 1, resource, change⟩ :: g.removedResources }
    else if needsReplacement resource then
      { g with willBeReplaced := ⟨i + 1, resource, change⟩ :: g.willBeReplaced }
    else if isAdd resource then
      { g with newResources := ⟨i + 1, resource, change⟩ :: g.newResources }
    else
      { g with modifiedWithoutReplacement := ⟨i + 1, resource, change⟩ :: g.modifiedWithoutReplacement }

/-- Embeds the duplicated classification pass of `generatePRReport`
(`changes.forEach` at lines 465-480 of `src/index.js`), which inlines
the same boolean tests; kept as a separate definition because the
source duplicates the code. -/
def classifyPR : Nat → List Change → Grouped
  | _, [] => ⟨[], [], [], []⟩
  | i, change :: rest =>
    let g := classifyPR (i + 1) rest
    let resource := change.ResourceChange
    if resource.Action == some "Remove" then
      { g with removedResources := ⟨i + 1, resource, change⟩ :: g.removedResources }
    else if resource.Replacement == some "True" || resource.Replacement == some "Conditional" then
      { g with willBeReplaced := ⟨i + 1, resource, change⟩ :: g.willBeReplaced }
    else if resource.Action == some "Add" then
      { g with newResources := ⟨i + 1, resource, change⟩ :: g.newResources }
    else
      { g with modifiedWithoutReplacement := ⟨i + 1, resource, change⟩ :: g.modifiedWithoutReplacement }

/-- The four classification buckets. -/
inductive Category where
  | Removed
  | Replaced
  | New
  | ModifiedInPlace
deriving DecidableEq, Repr

/-- The category a single resource is assigned by the classification
chain of lines 239-251: the same precedence order as `classify`,
factored as a function of one resource. -/
def categoryOf (r : ResourceChange) : Category :=
  if isRemove r then Category.Removed
  else if needsReplacement r then Category.Replaced
  else if isAdd r then Category.New
  else Category.ModifiedInPlace

/-- The `_color` marker attached to each resource at lines 238-254,
derived 1:1 from the same chain. -/
def colorOf (r : ResourceChange) : String :=
  if isRemove r then "darkred"
  else if needsReplacement r then "red"
  else if isAdd r then "green"
  else "yellow"

/-- Projects the group of a given category out of the grouped record. -/
def groupOf (g : Grouped) : Category → List GroupEntry
  | Category.Removed => g.removedResources
  | Category.Replaced => g.willBeReplaced
  | Category.New => g.newResources
  | Category.ModifiedInPlace => g.modifiedWithoutReplacement

/-- Conses one entry onto the group of the given category; `classify`
takes exactly one such step per change. -/
def addEntry (cat : Category) (e : GroupEntry) (g : Grouped) : Grouped :=
  match cat with
  | Category.Removed => { g with removedResources := e :: g.removedResources }
  | Category.Replaced => { g with willBeReplaced := e :: g.willBeReplaced }
  | Category.New => { g with newResources := e :: g.newResources }
  | Category.ModifiedInPlace => { g with modifiedWithoutReplacement := e :: g.modifiedWithoutReplacement }

/-- Pairs each list element with its 0-based position offset by `i`,
modelling the index argument of `Array.prototype.forEach`. -/
def enumFrom {α : Type} : Nat → List α → List (Nat × α)
  | _, [] => []
  | i, c :: cs => (i, c) :: enumFrom (i + 1) cs

/-- Embeds `String.prototype.padEnd` with space padding. -/
def padEnd (s : String) (w : Nat) : String :=
  s ++ String.mk (List.replicate (w - s.length) ' ')

/-- Embeds `'-'.repeat(n)` and friends. -/
def repeatChar (ch : Char) (n : Nat) : String :=
  String.mk (List.replicate n ch)

/-- The title line of the console report (line 217 of `src/index.js`). -/
def reportTitle : String :=
  "\x1b[97m\x1b[1m── Cloudformation Changeset Report ──\x1b[0m\n\n"

/-- The summary header plus the four count lines, in the display order
removed / replaced / modified / new (lines 257-263). -/
def summaryBlock (totalCount : Nat) (g : Grouped) : String :=
  "\x1b[97m\x1b[1m── Changes Summary (" ++ toString totalCount ++ ") ──\x1b[0m\n\n" ++
  "⛔ \x1b[31mResources to be removed:\x1b[0m " ++ toString g.removedResources.length ++ "  \n" ++
  "🔴 \x1b[91mResources requiring replacement:\x1b[0m " ++ toString g.willBeReplaced.length ++ "  \n" ++
  "🟡 \x1b[93mResources modified in-place:\x1b[0m " ++ toString g.modifiedWithoutReplacement.length ++ "  \n" ++
  "🟢 \x1b[92mNew resources to be created:\x1b[0m " ++ toString g.newResources.length ++ "  \n\n"

/-- The per-column maxima, the `colWidths` object of lines 270-275. -/
structure ColWidths where
  resource : Nat
  type : Nat
  action : Nat
  replacement : Nat
deriving DecidableEq, Repr

/-- The initial `colWidths` values: the header lengths (lines 270-275). -/
def initColWidths : ColWidths :=
  ⟨"Resource".length, "Type".length, "Action".length, "Replacement".length⟩

/-- One iteration of the width-maximising `forEach` at lines 278-290.
`resource.Action.length` throws a `TypeError` when `Action` is absent,
modelled by `none`. -/
def widthStep (w : ColWidths) (c : Change) : Option ColWidths :=
  let r := c.ResourceChange
  match r.Action with
  | none => none
  | some act =>
    some ⟨max w.resource (r.LogicalResourceId.length + 2),
          max w.type r.ResourceType.length,
          max w.action act.length,
          max w.replacement (r.Replacement.getD "N/A").length⟩

/-- Folds `widthStep` over the change list (the `forEach` of lines
278-290); the first thrown `TypeError` aborts the whole computation. -/
def computeMaxWidths : ColWidths → List Change → Option ColWidths
  | w, [] => some w
  | w, c :: rest =>
    match widthStep w c with
    | none => none
    | some w2 => computeMaxWidths w2 rest

/-- The fixed extra padding added to every column (line 293). -/
def tablePadding : Nat := 2

/-- The complete column-width computation of lines 269-296: maxima over
header and rows, then `padding` added to each column. -/
def computeColWidths (changes : List Change) : Option ColWidths :=
  (computeMaxWidths initColWidths changes).map (fun w =>
    ⟨w.resource + tablePadding, w.type + tablePadding,
     w.action + tablePadding, w.replacement + tablePadding⟩)

/-- The table header row (line 299). -/
def tableHeaderRow (w : ColWidths) : String :=
  "\x1b[97m| # | " ++ padEnd "Resource" w.resource ++ " | " ++ padEnd "Type" w.type ++
  " | " ++ padEnd "Action" w.action ++ " | " ++ padEnd "Replacement" w.replacement ++
  " |\x1b[0m\n"

/-- The table separator row (line 302). -/
def tableSeparatorRow (w : ColWidths) : String :=
  "\x1b[97m| - | " ++ repeatChar '-' w.resource ++ " | " ++ repeatChar '-' w.type ++
  " | " ++ repeatChar '-' w.action ++ " | " ++ repeatChar '-' w.replacement ++
  " |\x1b[0m\n"

/-- The `colorEmoji` selection of lines 308-323. -/
def colorEmoji (color : String) : String :=
  if color == "darkred" then "⛔"
  else if color == "red" then "🔴"
  else if color == "yellow" then "🟡"
  else if color == "green" then "🟢"
  else "⚪"

/-- The `textColorCode` selection of lines 308-323. -/
def textColorCode (color : String) : String :=
  if color == "darkred" then "\x1b[31m"
  else if color == "red" then "\x1b[91m"
  else if color == "yellow" then "\x1b[93m"
  else if color == "green" then "\x1b[92m"
  else ""

/-- The fixed ANSI sequence length constant of line 329. -/
def ANSI_COLOR_LENGTH : Nat := 9

/-- The four padded cells of one data row (lines 331-334).  The
`_color` marker stored during classification is recomputed by
`colorOf`, which yields the identical value. -/
def rowCells (w : ColWidths) (c : Change) : String :=
  let resource := c.ResourceChange
  let color := colorOf resource
  let emoji := colorEmoji color
  let code := textColorCode color
  let resourceCell :=
    padEnd (emoji ++ " " ++ code ++ resource.LogicalResourceId ++ "\x1b[0m")
      (w.resource + ANSI_COLOR_LENGTH)
  let typeCell := padEnd resource.ResourceType w.type
  let actionCell :=
    padEnd (code ++ jsStr resource.Action ++ "\x1b[0m") (w.action + ANSI_COLOR_LENGTH)
  let replacementCell :=
    padEnd (code ++ resource.Replacement.getD "N/A" ++ "\x1b[0m")
      (w.replacement + ANSI_COLOR_LENGTH)
  resourceCell ++ " \x1b[97m|\x1b[0m " ++ typeCell ++ " \x1b[97m|\x1b[0m " ++
  actionCell ++ " \x1b[97m|\x1b[0m " ++ replacementCell ++ " \x1b[97m|\x1b[0m\n"

/-- One full data row of the All Changes table (line 336), with its
1-based index `i + 1`. -/
def actionTableRow (w : ColWidths) (i : Nat) (c : Change) : String :=
  "\x1b[97m| " ++ toString (i + 1) ++ " |\x1b[0m " ++ rowCells w c

/-- All data rows, in original changeset order (the `forEach` at lines
305-337). -/
def actionTableRows (w : ColWidths) (changes : List Change) : List String :=
  (enumFrom 0 changes).map (fun p => actionTableRow w p.1 p.2)

/-- The All Changes heading plus the full table (lines 267-337); `none`
when the width computation throws. -/
def actionTable (changes : List Change) : Option String :=
  (computeColWidths changes).map (fun w =>
    "\x1b[97m\x1b[1m── All Changes ──\x1b[0m\n\n" ++
    tableHeaderRow w ++ tableSeparatorRow w ++ String.join (actionTableRows w changes))

/-- The replacement-cause test of lines 352-356 / 532-536:
`detail.Evaluation === 'Dynamic' || detail.Target.RequiresRecreation ===
'Always' || detail.Target.RequiresRecreation === 'Conditionally'`. -/
def causePred (d : Detail) : Bool :=
  d.Evaluation == "Dynamic" ||
  d.Target.RequiresRecreation == "Always" ||
  d.Target.RequiresRecreation == "Conditionally"

/-- The `replacementCauses` filter of lines 352-356 / 532-536. -/
def replacementCauses (details : List Detail) : List Detail :=
  details.filter causePred

/-- One replacement-cause line of the console report (line 360). -/
def causeLine (d : Detail) : String :=
  "       - Property \x1b[97m`" ++ d.Target.Name ++
  "`\x1b[0m requires recreation \x1b[91m(" ++ d.Target.RequiresRecreation ++ ")\x1b[0m\n"

/-- The fallback line emitted at line 363 when no explicit cause is
found among a non-empty detail list. -/
def implicitReplacementLine : String :=
  "       - \x1b[91mImplicit replacement due to dependent resource changes\x1b[0m\n"

/-- The lines below the Replacement Reason heading (lines 351-365):
nothing at all when `Details` is absent or empty; otherwise the cause
lines, or the implicit-replacement fallback when no detail passes the
cause test. -/
def replacedReasonLines (r : ResourceChange) : String :=
  match r.Details with
  | some details =>
    if details.length > 0 then
      let causes := replacementCauses details
      if causes.length > 0 then String.join (causes.map causeLine)
      else implicitReplacementLine
    else ""
  | none => ""

/-- The is-replacement-cause highlight test of lines 370-371 / 548-549:
`detail.Target.RequiresRecreation === 'Always' ||
detail.Target.RequiresRecreation === 'Conditionally'` — note it does not
test `Evaluation`. -/
def highlightPred (d : Detail) : Bool :=
  d.Target.RequiresRecreation == "Always" ||
  d.Target.RequiresRecreation == "Conditionally"

/-- One line of the All Property Changes sub-listing (lines 369-375). -/
def allPropertyChangeLine (d : Detail) : String :=
  let pfx := if highlightPred d then "⚠️ " else ""
  let nameColor := if highlightPred d then "\x1b[91m" else "\x1b[97m"
  "       - " ++ pfx ++ nameColor ++ d.Target.Name ++ ":\x1b[0m " ++
  d.ChangeSource ++ " (\x1b[90m" ++ d.Target.Attribute ++ "\x1b[0m)\n"

/-- The All Property Changes sub-listing of a replaced resource (lines
367-376), present only when `Details` is non-empty. -/
def replacedAllChanges (r : ResourceChange) : String :=
  match r.Details with
  | some details =>
    if details.length > 0 then
      "\n     • \x1b[97mAll Property Changes:\x1b[0m\n" ++
      String.join (details.map allPropertyChangeLine)
    else ""
  | none => ""

/-- One per-resource block of the Resources Requiring Replacement
section (lines 343-379); `localIndex` is 0-based, displayed as
`localIndex + 1`. -/
def replacedBlock (localIndex : Nat) (r : ResourceChange) : String :=
  "   \x1b[1m" ++ toString (localIndex + 1) ++ ".\x1b[0m \x1b[91m" ++
  r.LogicalResourceId ++ "\x1b[0m (\x1b[90m" ++ r.ResourceType ++ "\x1b[0m)\n" ++
  "     • \x1b[97mAction:\x1b[0m \x1b[91m" ++ jsStr r.Action ++ "\x1b[0m\n" ++
  "     • \x1b[97mReplacement:\x1b[0m \x1b[91m" ++ jsStr r.Replacement ++ "\x1b[0m\n" ++
  "     • \x1b[1m\x1b[97m⚠️ Replacement Reason:\x1b[0m\n" ++
  replacedReasonLines r ++ replacedAllChanges r ++ "\n"

/-- One property line of a modified-in-place block (line 394). -/
def modifiedDetailLine (d : Detail) : String :=
  "       - \x1b[93m" ++ d.Target.Name ++ ":\x1b[0m " ++ d.ChangeSource ++
  " (\x1b[90m" ++ d.Target.Attribute ++ "\x1b[0m)\n"

/-- One per-resource block of the Resources Modified In-Place section
(lines 386-399). -/
def modifiedBlock (localIndex : Nat) (r : ResourceChange) : String :=
  "   \x1b[1m" ++ toString (localIndex + 1) ++ ".\x1b[0m \x1b[93m" ++
  r.LogicalResourceId ++ "\x1b[0m (\x1b[90m" ++ r.ResourceType ++ "\x1b[0m)\n" ++
  "     • \x1b[97mAction:\x1b[0m \x1b[93m" ++ jsStr r.Action ++ "\x1b[0m\n" ++
  "     • \x1b[97mReplacement:\x1b[0m " ++ r.Replacement.getD "N/A" ++ "\n" ++
  (match r.Details with
   | some details =>
     if details.length > 0 then
       "     • \x1b[97mProperty Changes:\x1b[0m\n" ++
       String.join (details.map modifiedDetailLine)
     else ""
   | none => "") ++
  "\n"

/-- One property line of a new-resource block (line 414). -/
def newDetailLine (d : Detail) : String :=
  "       - \x1b[92m" ++ d.Target.Name ++ ":\x1b[0m " ++ d.ChangeSource ++
  " (\x1b[90m" ++ d.Target.Attribute ++ "\x1b[0m)\n"

/-- One per-resource block of the New Resources section (lines
406-419). -/
def newBlock (localIndex : Nat) (r : ResourceChange) : String :=
  "   \x1b[1m" ++ toString (localIndex + 1) ++ ".\x1b[0m \x1b[92m" ++
  r.LogicalResourceId ++ "\x1b[0m (\x1b[90m" ++ r.ResourceType ++ "\x1b[0m)\n" ++
  "     • \x1b[97mAction:\x1b[0m \x1b[92m" ++ jsStr r.Action ++ "\x1b[0m\n" ++
  (match r.Details with
   | some details =>
     if details.length > 0 then
       "     • \x1b[97mProperty Details:\x1b[0m\n" ++
       String.join (details.map newDetailLine)
     else ""
   | none => "") ++
  "\n"

/-- One property line of a removed-resource block (line 434). -/
def removedDetailLine (d : Detail) : String :=
  "       - \x1b[31m" ++ d.Target.Name ++ ":\x1b[0m " ++ d.ChangeSource ++
  " (\x1b[90m" ++ d.Target.Attribute ++ "\x1b[0m)\n"

/-- The permanent-deletion warning appended to every removed-resource
block (line 438). -/
def permanentDeletionWarning : String :=
  "     • \x1b[97m\x1b[1m⚠️ Warning:\x1b[0m This resource will be \x1b[31mPERMANENTLY DELETED\x1b[0m\n"

/-- The part of a removed-resource block before the warning (lines
427-436). -/
def removedBlockBody (localIndex : Nat) (r : ResourceChange) : String :=
  "   \x1b[1m" ++ toString (localIndex + 1) ++ ".\x1b[0m \x1b[31m" ++
  r.LogicalResourceId ++ "\x1b[0m (\x1b[90m" ++ r.ResourceType ++ "\x1b[0m)\n" ++
  "     • \x1b[97mAction:\x1b[0m \x1b[31m" ++ jsStr r.Action ++ "\x1b[0m\n" ++
  (match r.Details with
   | some details =>
     if details.length > 0 then
       "     • \x1b[97mResource Details:\x1b[0m\n" ++
       String.join (details.map removedDetailLine)
     else ""
   | none => "")

/-- One per-resource block of the Resources Being Removed section
(lines 426-440): body, then the warning, unconditionally. -/
def removedBlock (localIndex : Nat) (r : ResourceChange) : String :=
  removedBlockBody localIndex r ++ permanentDeletionWarning ++ "\n"

/-- The per-resource blocks of one section, with 0-based local indices
(the group `forEach` calls). -/
def sectionBlocks (blockFn : Nat → ResourceChange → String)
    (entries : List GroupEntry) : String :=
  String.join ((enumFrom 0 entries).map (fun p => blockFn p.1 p.2.resource))

/-- The Resources Requiring Replacement section (lines 340-380),
emitted only when its group is non-empty. -/
def replacedSection (g : Grouped) : String :=
  if g.willBeReplaced.length > 0 then
    "\n\n\x1b[91m\x1b[1m🔴 Resources Requiring Replacement\x1b[0m (" ++
    toString g.willBeReplaced.length ++ ")\n\n" ++
    sectionBlocks replacedBlock g.willBeReplaced
  else ""

/-- The Resources Modified In-Place section (lines 383-400). -/
def modifiedSection (g : Grouped) : String :=
  if g.modifiedWithoutReplacement.length > 0 then
    "\n\n\x1b[93m\x1b[1m🟡 Resources Modified In-Place\x1b[0m (" ++
    toString g.modifiedWithoutReplacement.length ++ ")\n\n" ++
    sectionBlocks modifiedBlock g.modifiedWithoutReplacement
  else ""

/-- The New Resources section (lines 403-420). -/
def newSection (g : Grouped) : String :=
  if g.newResources.length > 0 then
    "\n\n\x1b[92m\x1b[1m🟢 New Resources\x1b[0m (" ++
    toString g.newResources.length ++ ")\n\n" ++
    sectionBlocks newBlock g.newResources
  else ""

/-- The Resources Being Removed section (lines 423-441). -/
def removedSection (g : Grouped) : String :=
  if g.removedResources.length > 0 then
    "\n\n\x1b[31m\x1b[1m⛔ Resources Being Removed\x1b[0m (" ++
    toString g.removedResources.length ++ ")\n\n" ++
    sectionBlocks removedBlock g.removedResources
  else ""

/-- The per-category detail sections in the fixed source order:
replaced, modified, new, removed (lines 340-441). -/
def actionDetailSections (g : Grouped) : String :=
  replacedSection g ++ modifiedSection g ++ newSection g ++ removedSection g

/-- Embeds `generateActionReport` (lines 216-447).  Returns `none`
exactly when the JavaScript function throws: the only uncaught access
is `resource.Action.length` in the width computation, reached when the
change list is non-empty. -/
def generateActionReport (changeset : Changeset) : Option String :=
  let changes := changeset.Changes.getD []
  let totalCount := changes.length
  let g := classify 0 changes
  let base := reportTitle ++ summaryBlock totalCount g
  if totalCount > 0 then
    (actionTable changes).map (fun t => base ++ t ++ actionDetailSections g)
  else
    some (base ++ "No changes detected.\n")

/-- The markdown header block of `generatePRReport` (lines 483-489). -/
def prHeader (changeset : Changeset) : String :=
  "# CloudFormation Changeset Report\n\n" ++
  "> **Stack:** `" ++ changeset.StackName ++ "`  \n" ++
  "> **Changeset:** `" ++ changeset.ChangeSetName ++ "`  \n" ++
  "> **Status:** `" ++ changeset.Status ++ "`  \n" ++
  "> **Execution Status:** `" ++ changeset.ExecutionStatus.getD "N/A" ++ "`\n\n"

/-- The markdown summary section (lines 492-496), same display order as
the console summary. -/
def prSummary (totalCount : Nat) (g : Grouped) : String :=
  "## Changes Summary (" ++ toString totalCount ++ ")\n\n" ++
  "- ⛔ **Resources to be removed:** " ++ toString g.removedResources.length ++ "\n" ++
  "- 🔴 **Resources requiring replacement:** " ++ toString g.willBeReplaced.length ++ "\n" ++
  "- 🟡 **Resources modified in-place:** " ++ toString g.modifiedWithoutReplacement.length ++ "\n" ++
  "- 🟢 **New resources to be created:** " ++ toString g.newResources.length ++ "\n\n"

/-- The emoji chosen per table row in the markdown report (lines
506-514), recomputed from the same boolean tests. -/
def prEmoji (r : ResourceChange) : String :=
  if r.Action == some "Remove" then "⛔"
  else if r.Replacement == some "True" || r.Replacement == some "Conditional" then "🔴"
  else if r.Action == some "Add" then "🟢"
  else "🟡"

/-- One markdown table row (line 516), with 1-based index `i + 1` and
`N/A` when `Replacement` is absent. -/
def prTableRow (i : Nat) (c : Change) : String :=
  let r := c.ResourceChange
  "| " ++ toString (i + 1) ++ " | " ++ prEmoji r ++ " " ++ r.LogicalResourceId ++
  " | " ++ r.ResourceType ++ " | " ++ jsStr r.Action ++ " | " ++
  r.Replacement.getD "N/A" ++ " |\n"

/-- One replacement-cause line of the markdown report (line 540). -/
def prCauseLine (d : Detail) : String :=
  "  - Property `" ++ d.Target.Name ++ "` requires recreation (" ++
  d.Target.RequiresRecreation ++ ")\n"

/-- The markdown fallback line of line 543. -/
def prImplicitReplacementLine : String :=
  "  - Implicit replacement due to dependent resource changes\n"

/-- One line of the markdown All Property Changes sub-listing (lines
547-551), highlighted with the same `RequiresRecreation`-only test as
the console variant. -/
def prAllChangeLine (d : Detail) : String :=
  let pfx := if highlightPred d then "⚠️ " else ""
  "  - " ++ pfx ++ d.Target.Name ++ ": " ++ d.ChangeSource ++
  " (" ++ d.Target.Attribute ++ ")\n"

/-- The reason lines plus the All Property Changes sub-listing of a
replaced resource in the markdown report (lines 531-553); unlike the
console variant both parts live under one non-empty-details guard. -/
def prReplacedReasonAndChanges (r : ResourceChange) : String :=
  match r.Details with
  | some details =>
    if details.length > 0 then
      (let causes := replacementCauses details
       if causes.length > 0 then String.join (causes.map prCauseLine)
       else prImplicitReplacementLine) ++
      "\n- **All Property Changes:**\n" ++ String.join (details.map prAllChangeLine)
    else ""
  | none => ""

/-- One replaced-resource block of the markdown report (lines
523-556). -/
def prReplacedBlock (localIndex : Nat) (r : ResourceChange) : String :=
  "### " ++ toString (localIndex + 1) ++ ". " ++ r.LogicalResourceId ++
  " (" ++ r.ResourceType ++ ")\n" ++
  "- **Action:** " ++ jsStr r.Action ++ "\n" ++
  "- **Replacement:** " ++ jsStr r.Replacement ++ "\n" ++
  "- **⚠️ Replacement Reason:**\n" ++
  prReplacedReasonAndChanges r ++ "\n"

/-- One markdown property line of a modified-in-place block (line
571). -/
def prDetailLine (d : Detail) : String :=
  "  - " ++ d.Target.Name ++ ": " ++ d.ChangeSource ++
  " (" ++ d.Target.Attribute ++ ")\n"

/-- One modified-in-place block of the markdown report (lines
563-576). -/
def prModifiedBlock (localIndex : Nat) (r : ResourceChange) : String :=
  "### " ++ toString (localIndex + 1) ++ ". " ++ r.LogicalResourceId ++
  " (" ++ r.ResourceType ++ ")\n" ++
  "- **Action:** " ++ jsStr r.Action ++ "\n" ++
  "- **Replacement:** " ++ r.Replacement.getD "N/A" ++ "\n" ++
  (match r.Details with
   | some details =>
     if details.length > 0 then
       "- **Property Changes:**\n" ++ String.join (details.map prDetailLine)
     else ""
   | none => "") ++
  "\n"

/-- One new-resource block of the markdown report (lines 583-596). -/
def prNewBlock (localIndex : Nat) (r : ResourceChange) : String :=
  "### " ++ toString (localIndex + 1) ++ ". " ++ r.LogicalResourceId ++
  " (" ++ r.ResourceType ++ ")\n" ++
  "- **Action:** " ++ jsStr r.Action ++ "\n" ++
  (match r.Details with
   | some details =>
     if details.length > 0 then
       "- **Property Details:**\n" ++ String.join (details.map prDetailLine)
     else ""
   | none => "") ++
  "\n"

/-- The fixed warning of a markdown removed-resource block (line
615). -/
def prPermanentDeletionWarning : String :=
  "- **⚠️ Warning:** This resource will be **PERMANENTLY DELETED**\n\n"

/-- One removed-resource block of the markdown report (lines
603-616). -/
def prRemovedBlock (localIndex : Nat) (r : ResourceChange) : String :=
  "### " ++ toString (localIndex + 1) ++ ". " ++ r.LogicalResourceId ++
  " (" ++ r.ResourceType ++ ")\n" ++
  "- **Action:** " ++ jsStr r.Action ++ "\n" ++
  (match r.Details with
   | some details =>
     if details.length > 0 then
       "- **Resource Details:**\n" ++ String.join (details.map prDetailLine)
     else ""
   | none => "") ++
  prPermanentDeletionWarning

/-- The markdown replaced section (lines 520-557). -/
def prReplacedSection (g : Grouped) : String :=
  if g.willBeReplaced.length > 0 then
    "\n## 🔴 Resources Requiring Replacement (" ++
    toString g.willBeReplaced.length ++ ")\n\n" ++
    sectionBlocks prReplacedBlock g.willBeReplaced
  else ""

/-- The markdown modified-in-place section (lines 560-577). -/
def prModifiedSection (g : Grouped) : String :=
  if g.modifiedWithoutReplacement.length > 0 then
    "\n## 🟡 Resources Modified In-Place (" ++
    toString g.modifiedWithoutReplacement.length ++ ")\n\n" ++
    sectionBlocks prModifiedBlock g.modifiedWithoutReplacement
  else ""

/-- The markdown new-resources section (lines 580-597). -/
def prNewSection (g : Grouped) : String :=
  if g.newResources.length > 0 then
    "\n## 🟢 New Resources (" ++ toString g.newResources.length ++ ")\n\n" ++
    sectionBlocks prNewBlock g.newResources
  else ""

/-- The markdown removed-resources section (lines 600-617). -/
def prRemovedSection (g : Grouped) : String :=
  if g.removedResources.length > 0 then
    "\n## ⛔ Resources Being Removed (" ++
    toString g.removedResources.length ++ ")\n\n" ++
    sectionBlocks prRemovedBlock g.removedResources
  else ""

/-- Embeds `generatePRReport` (lines 452-623).  The markdown renderer
reads no `.length` of an optional field, so it is total. -/
def generatePRReport (changeset : Changeset) : String :=
  let changes := changeset.Changes.getD []
  let totalCount := changes.length
  let g := classifyPR 0 changes
  prHeader changeset ++ prSummary totalCount g ++
  (if totalCount > 0 then
    "## All Changes\n\n" ++
    "| # | Resource | Type | Action | Replacement |\n" ++
    "|---|---------|------|--------|-------------|\n" ++
    String.join ((enumFrom 0 changes).map (fun p => prTableRow p.1 p.2)) ++
    prReplacedSection g ++ prModifiedSection g ++ prNewSection g ++ prRemovedSection g
  else "No changes detected.\n")

/-- Maximum of a list of naturals, 0 for the empty list. -/
def maxList : List Nat → Nat
  | [] => 0
  | n :: ns => max n (maxList ns)

/-- Content width of the Resource column cell for one change: the
logical id plus 2 for the emoji and space (line 280). -/
def resourceContentLen (c : Change) : Nat :=
  c.ResourceChange.LogicalResourceId.length + 2

/-- Content width of the Type column cell (line 281). -/
def typeContentLen (c : Change) : Nat :=
  c.ResourceChange.ResourceType.length

/-- Content width of the Action column cell (line 282); the default is
irrelevant whenever the width computation succeeds. -/
def actionContentLen (c : Change) : Nat :=
  (c.ResourceChange.Action.getD "").length

/-- Content width of the Replacement column cell (line 283). -/
def replacementContentLen (c : Change) : Nat :=
  (c.ResourceChange.Replacement.getD "N/A").length

/-- Replaces the `Replacement` field of a change. -/
def setReplacement (c : Change) (v : Option String) : Change :=
  ⟨{ c.ResourceChange with Replacement := v }⟩

/-- A removed resource that also carries a replacement flag: the
precedence rule must still file it under removed. -/
def exRemoveRes : ResourceChange :=
  ⟨"OldQueue", "AWS::SQS::Queue", some "Remove", some "True", none⟩

/-- The removed example wrapped as a change. -/
def exRemoveChange : Change := ⟨exRemoveRes⟩

/-- The group entry `classify` builds for `exRemoveChange` at position
0. -/
def exRemoveEntry : GroupEntry := ⟨1, exRemoveRes, exRemoveChange⟩

/-- A simple added resource with all optional fields present. -/
def exAddRes : ResourceChange :=
  ⟨"DataBucket", "AWS::S3::Bucket", some "Add", some "False", none⟩

/-- The added example wrapped as a change. -/
def exAddChange : Change := ⟨exAddRes⟩

/-- A changeset with one well-formed change. -/
def exAddCs : Changeset :=
  ⟨"demo-stack", "demo-cs", "CREATE_COMPLETE", some "AVAILABLE", some [exAddChange]⟩

/-- A changeset whose `Changes` field is absent. -/
def exEmptyCs : Changeset :=
  ⟨"demo-stack", "demo-cs", "CREATE_COMPLETE", none, none⟩

/-- A resource change missing its `Action` field. -/
def exNoActionRes : ResourceChange :=
  ⟨"Fn", "AWS::Lambda::Function", none, none, none⟩

/-- The action-less resource wrapped as a change. -/
def exNoActionChange : Change := ⟨exNoActionRes⟩

/-- A non-empty changeset whose single change is missing `Action`. -/
def exNoActionCs : Changeset :=
  ⟨"demo-stack", "demo-cs", "CREATE_COMPLETE", none, some [exNoActionChange]⟩

/-- A resource flagged for replacement whose detail list is present but
empty. -/
def exImplicitRes : ResourceChange :=
  ⟨"WebBucket", "AWS::S3::Bucket", some "Modify", some "True", some []⟩

/-- A detail that is a replacement cause by the extraction test
(`Evaluation` is Dynamic) but whose `RequiresRecreation` is Never. -/
def exDynDetail : Detail :=
  ⟨"Dynamic", ⟨"Port", "Properties", "Never"⟩, "DirectModification"⟩

/-- A detail that triggers the highlight: `RequiresRecreation` is
Always. -/
def exAlwaysDetail : Detail :=
  ⟨"Static", ⟨"BucketName", "Properties", "Always"⟩, "DirectModification"⟩

/-- A replaced resource whose only detail is `exDynDetail`. -/
def exDynRes : ResourceChange :=
  ⟨"Api", "AWS::ApiGateway::RestApi", some "Modify", some "Conditional", some [exDynDetail]⟩

/-!  Helper lemmas shared by the claim theorems. -/

/-- Unfolding lemma: one classification step conses the new entry onto
the group selected by `categoryOf`. -/
theorem classify_cons (i : Nat) (c : Change) (rest : List Change) :
    classify i (c :: rest) =
      addEntry (categoryOf c.ResourceChange) ⟨i + 1, c.ResourceChange, c⟩
        (classify (i + 1) rest) := by
  simp only [classify, categoryOf]
  by_cases h1 : isRemove c.ResourceChange <;>
    by_cases h2 : needsReplacement c.ResourceChange <;>
      by_cases h3 : isAdd c.ResourceChange <;>
        simp [h1, h2, h3, addEntry]

/-- Adding an entry to a category extends exactly that category. -/
theorem groupOf_addEntry_same (cat : Category) (e : GroupEntry) (g : Grouped) :
    groupOf (addEntry cat e g) cat = e :: groupOf g cat := by
  cases cat <;> rfl

/-- Adding an entry to one category leaves every other category
unchanged. -/
theorem groupOf_addEntry_ne (cat cat' : Category) (e : GroupEntry) (g : Grouped)
    (h : ¬ cat = cat') :
    groupOf (addEntry cat e g) cat' = groupOf g cat' := by
  cases cat <;> cases cat' <;> simp_all [addEntry, groupOf]

/-- Each group of the classification result is the order-preserving
filter of the index-enumerated input by its category. -/
theorem groupOf_classify (cat : Category) (i : Nat) (cs : List Change) :
    groupOf (classify i cs) cat =
      ((enumFrom i cs).filter
          (fun p => decide (categoryOf p.2.ResourceChange = cat))).map
        (fun p => GroupEntry.mk (p.1 + 1) p.2.ResourceChange p.2) := by
  induction cs generalizing i with
  | nil => cases cat <;> rfl
  | cons c rest ih =>
    rw [classify_cons]
    simp only [enumFrom]
    by_cases h : categoryOf c.ResourceChange = cat
    · subst h
      rw [groupOf_addEntry_same]
      simp [List.filter_cons, ih]
    · rw [groupOf_addEntry_ne _ _ _ _ h]
      simp [List.filter_cons, h, ih]

/-- The four group sizes always sum to the input length. -/
theorem classify_size (i : Nat) (cs : List Change) :
    (classify i cs).removedResources.length + (classify i cs).willBeReplaced.length +
      (classify i cs).modifiedWithoutReplacement.length +
      (classify i cs).newResources.length = cs.length := by
  induction cs generalizing i with
  | nil => rfl
  | cons c rest ih =>
    rw [classify_cons]
    have h := ih (i + 1)
    cases categoryOf c.ResourceChange <;> simp [addEntry] <;> omega

/-- The duplicated markdown classification pass computes the same
groups as the console one. -/
theorem classifyPR_eq_classify (i : Nat) (cs : List Change) :
    classifyPR i cs = classify i cs := by
  induction cs generalizing i with
  | nil => rfl
  | cons c rest ih =>
    simp only [classifyPR, classify, isRemove, needsReplacement, isAdd, ih]

/-- Every member of a list is bounded by the list maximum. -/
theorem le_maxList_of_mem {n : Nat} {l : List Nat} (h : n ∈ l) : n ≤ maxList l := by
  induction l with
  | nil => cases h
  | cons m ms ih =>
    rcases List.mem_cons.mp h with h | h
    · subst h; exact Nat.le_max_left _ _
    · exact Nat.le_trans (ih h) (Nat.le_max_right _ _)

/-- A successful width fold computes, per column, the maximum of the
seed and all row content widths. -/
theorem computeMaxWidths_eq (cs : List Change) :
    ∀ w w' : ColWidths, computeMaxWidths w cs = some w' →
      w'.resource = max w.resource (maxList (cs.map resourceContentLen)) ∧
      w'.type = max w.type (maxList (cs.map typeContentLen)) ∧
      w'.action = max w.action (maxList (cs.map actionContentLen)) ∧
      w'.replacement = max w.replacement (maxList (cs.map replacementContentLen)) := by
  induction cs with
  | nil =>
    intro w w' h
    simp only [computeMaxWidths, Option.some_inj] at h
    subst h
    simp [maxList]
  | cons c rest ih =>
    intro w w' h
    cases hact : c.ResourceChange.Action with
    | none =>
      simp only [computeMaxWidths, widthStep, hact] at h
      exact Option.noConfusion h
    | some act =>
      simp only [computeMaxWidths, widthStep, hact] at h
      have h2 := ih _ _ h
      refine ⟨?_, ?_, ?_, ?_⟩ <;>
        simp only [h2.1, h2.2.1, h2.2.2.1, h2.2.2.2, List.map_cons, maxList,
          resourceContentLen, typeContentLen, actionContentLen, replacementContentLen,
          hact, Option.getD_some, Nat.max_assoc]

/-- The width fold succeeds whenever every change carries an action. -/
theorem computeMaxWidths_isSome (cs : List Change)
    (h : ∀ c ∈ cs, (c.ResourceChange.Action).isSome = true) :
    ∀ w : ColWidths, (computeMaxWidths w cs).isSome = true := by
  induction cs with
  | nil => intro w; rfl
  | cons c rest ih =>
    intro w
    have hc := h c (List.mem_cons_self c rest)
    cases hact : c.ResourceChange.Action with
    | none => rw [hact] at hc; cases hc
    | some act =>
      simp only [computeMaxWidths, widthStep, hact]
      exact ih (fun c' hc' => h c' (List.mem_cons_of_mem _ hc')) _

/-- A string with a non-empty prefix is non-empty. -/
theorem prefixed_ne_empty (a b : String) (h : 0 < a.length) : a ++ b ≠ "" := by
  intro heq
  have hl := congrArg String.length heq
  rw [String.length_append] at hl
  have hz : ("" : String).length = 0 := rfl
  rw [hz] at hl
  omega

/-- A four-part concatenation with a non-empty head is non-empty. -/
theorem four_append_ne_empty (a b c d : String) (h : 0 < a.length) :
    a ++ b ++ c ++ d ≠ "" := by
  apply prefixed_ne_empty
  rw [String.length_append, String.length_append]
  omega

/-- Position lookup in an index enumeration. -/
theorem enumFrom_get? {α : Type} (i k : Nat) (l : List α) :
    (enumFrom i l).get? k = (l.get? k).map (fun a => (i + k, a)) := by
  induction l generalizing i k with
  | nil => simp [enumFrom]
  | cons a as ih =>
    cases k with
    | zero => simp [enumFrom]
    | succ k =>
      simp only [enumFrom, List.get?_cons_succ, ih (i + 1) k]
      have : i + 1 + k = i + (k + 1) := by omega
      rw [this]

/-- Index enumeration preserves length. -/
theorem enumFrom_length {α : Type} (i : Nat) (l : List α) :
    (enumFrom i l).length = l.length := by
  induction l generalizing i with
  | nil => rfl
  | cons a as ih => simp [enumFrom, ih]

/-- C1: the classifier assigns every resource change exactly one
category by the precedence remove, then replacement True/Conditional,
then add, then modified in place — first match wins: `categoryOf` is
that chain, every entry found in a group belongs to the category of its
resource, every change lands in the group of its category, and a
resource with action Remove is categorized Removed regardless of its
replacement value. -/
theorem claim_classifier_precedence :
    (∀ r : ResourceChange, categoryOf r =
       (if isRemove r then Category.Removed
        else if needsReplacement r then Category.Replaced
        else if isAdd r then Category.New
        else Category.ModifiedInPlace)) ∧
    (∀ (i : Nat) (cs : List Change) (cat : Category) (e : GroupEntry),
       e ∈ groupOf (classify i cs) cat → cat = categoryOf e.resource) ∧
    (∀ (i : Nat) (cs : List Change) (k : Nat) (hk : k < cs.length),
       GroupEntry.mk (i + k + 1) (cs.get ⟨k, hk⟩).ResourceChange (cs.get ⟨k, hk⟩) ∈
         groupOf (classify i cs) (categoryOf (cs.get ⟨k, hk⟩).ResourceChange)) ∧
    (∀ r : ResourceChange, r.Action = some "Remove" →
       (categoryOf r = Category.Removed ∧
        ∀ v : Option String, categoryOf { r with Replacement := v } = Category.Removed)) := by
  refine ⟨fun r => rfl, ?_, ?_, ?_⟩
  · intro i cs cat e he
    rw [groupOf_classify] at he
    obtain ⟨p, hp, hpe⟩ := List.mem_map.mp he
    have hcat := (List.mem_filter.mp hp).2
    have hcat2 : categoryOf p.2.ResourceChange = cat := of_decide_eq_true hcat
    have hres : e.resource = p.2.ResourceChange := by rw [← hpe]
    rw [hres, hcat2]
  · intro i cs k hk
    rw [groupOf_classify]
    apply List.mem_map.mpr
    refine ⟨(i + k, cs.get ⟨k, hk⟩), ?_, rfl⟩
    apply List.mem_filter.mpr
    constructor
    · apply List.get?_mem
      rw [enumFrom_get?, List.get?_eq_get hk]
      rfl
    · exact decide_eq_true rfl
  · intro r h
    constructor
    · simp [categoryOf, isRemove, h]
    · intro v
      simp [categoryOf, isRemove, h]

/-- Witness for C1 at a one-element changeset whose resource has action
Remove and replacement True: it is filed under Removed. -/
theorem claim_classifier_precedence_witness :
    (Category.Removed = categoryOf exRemoveEntry.resource) ∧
    (GroupEntry.mk 1 exRemoveRes exRemoveChange ∈
       groupOf (classify 0 [exRemoveChange]) (categoryOf exRemoveRes)) ∧
    (categoryOf exRemoveRes = Category.Removed ∧
     ∀ v : Option String, categoryOf { exRemoveRes with Replacement := v } = Category.Removed) :=
  ⟨claim_classifier_precedence.2.1 0 [exRemoveChange] Category.Removed exRemoveEntry (by decide),
   claim_classifier_precedence.2.2.1 0 [exRemoveChange] 0 (by decide),
   claim_classifier_precedence.2.2.2 exRemoveRes rfl⟩

/-- C2: classification is an exhaustive stable partition: each group of
`classify` is the order-preserving filter of the enumerated input by
its category (so each change lands in exactly one group and relative
order is preserved), and the four group sizes sum to the input
length. -/
theorem claim_stable_partition (cs : List Change) :
    (∀ cat : Category, groupOf (classify 0 cs) cat =
       ((enumFrom 0 cs).filter
           (fun p => decide (categoryOf p.2.ResourceChange = cat))).map
         (fun p => GroupEntry.mk (p.1 + 1) p.2.ResourceChange p.2)) ∧
    (classify 0 cs).willBeReplaced.length +
      (classify 0 cs).modifiedWithoutReplacement.length +
      (classify 0 cs).newResources.length +
      (classify 0 cs).removedResources.length = cs.length := by
  refine ⟨fun cat => groupOf_classify cat 0 cs, ?_⟩
  have h := classify_size 0 cs
  omega

/-- C9: classification is independent of the output format: the
duplicated grouping pass of the markdown renderer produces the same
groups — same members, same order, hence same counts — as the console
one. -/
theorem claim_format_independent (i : Nat) (cs : List Change) :
    classifyPR i cs = classify i cs ∧
    (∀ cat : Category, groupOf (classifyPR i cs) cat = groupOf (classify i cs) cat) ∧
    (∀ cat : Category,
       (groupOf (classifyPR i cs) cat).length = (groupOf (classify i cs) cat).length) := by
  refine ⟨classifyPR_eq_classify i cs, fun cat => ?_, fun cat => ?_⟩ <;>
    rw [classifyPR_eq_classify]

/-- C10: in both report variants the total passed to the Changes
Summary header is the length of the change list, and it equals the sum
of the four per-category counts printed below it. -/
theorem claim_summary_counts (cs : Changeset) :
    (classify 0 (cs.Changes.getD [])).removedResources.length +
      (classify 0 (cs.Changes.getD [])).willBeReplaced.length +
      (classify 0 (cs.Changes.getD [])).modifiedWithoutReplacement.length +
      (classify 0 (cs.Changes.getD [])).newResources.length =
      (cs.Changes.getD []).length ∧
    (classifyPR 0 (cs.Changes.getD [])).removedResources.length +
      (classifyPR 0 (cs.Changes.getD [])).willBeReplaced.length +
      (classifyPR 0 (cs.Changes.getD [])).modifiedWithoutReplacement.length +
      (classifyPR 0 (cs.Changes.getD [])).newResources.length =
      (cs.Changes.getD []).length := by
  have h := classify_size 0 (cs.Changes.getD [])
  have h2 := classifyPR_eq_classify 0 (cs.Changes.getD [])
  constructor
  · omega
  · rw [h2]; omega

/-- C3 counterexample: a resource flagged for replacement
(`Replacement` = True, so it is categorized Replaced) whose detail list
is present but empty has an empty replacement-cause subsequence, yet
neither renderer emits the implicit-replacement fallback line: the
rendered reason section is empty. -/
theorem claim_fallback_counterexample :
    needsReplacement exImplicitRes = true ∧
    categoryOf exImplicitRes = Category.Replaced ∧
    exImplicitRes.Details = some [] ∧
    replacementCauses [] = [] ∧
    replacedReasonLines exImplicitRes = "" ∧
    prReplacedReasonAndChanges exImplicitRes = "" ∧
    implicitReplacementLine ≠ "" ∧
    prImplicitReplacementLine ≠ "" := by decide

/-- C3 amended: the replacement-cause subsequence is exactly the
details satisfying the extraction test, in original order; when the
detail list is non-empty, the reason section lists exactly those causes
and falls back to the implicit-replacement line only when no detail
passes the test; when the detail list is absent or empty, no reason
line — fallback included — is emitted at all. -/
theorem claim_fallback_amended :
    (∀ details : List Detail,
       (∀ d : Detail, d ∈ replacementCauses details ↔ d ∈ details ∧ causePred d = true) ∧
       (replacementCauses details).Sublist details) ∧
    (∀ (r : ResourceChange) (details : List Detail),
       r.Details = some details → 0 < details.length →
       replacedReasonLines r =
         (if 0 < (replacementCauses details).length then
            String.join ((replacementCauses details).map causeLine)
          else implicitReplacementLine)) ∧
    (∀ r : ResourceChange, r.Details = none ∨ r.Details = some [] →
       replacedReasonLines r = "") ∧
    (∀ (r : ResourceChange) (details : List Detail),
       r.Details = some details → 0 < details.length →
       prReplacedReasonAndChanges r =
         (if 0 < (replacementCauses details).length then
            String.join ((replacementCauses details).map prCauseLine)
          else prImplicitReplacementLine) ++
         "\n- **All Property Changes:**\n" ++ String.join (details.map prAllChangeLine)) := by
  refine ⟨fun details => ⟨fun d => ?_, ?_⟩, ?_, ?_, ?_⟩
  · exact List.mem_filter
  · exact List.filter_sublist details
  · intro r details hdet hlen
    simp only [replacedReasonLines, hdet]
    rw [if_pos hlen]
  · rintro r (h | h) <;> simp [replacedReasonLines, h]
  · intro r details hdet hlen
    simp only [prReplacedReasonAndChanges, hdet]
    rw [if_pos hlen]

/-- Witness for C3 amended: a one-detail list whose detail passes the
extraction test only through its Dynamic evaluation still renders that
cause; a resource with an empty detail list renders nothing. -/
theorem claim_fallback_amended_witness :
    (exDynDetail ∈ replacementCauses [exDynDetail] ↔
       exDynDetail ∈ [exDynDetail] ∧ causePred exDynDetail = true) ∧
    replacedReasonLines exDynRes =
      (if 0 < (replacementCauses [exDynDetail]).length then
         String.join ((replacementCauses [exDynDetail]).map causeLine)
       else implicitReplacementLine) ∧
    replacedReasonLines exImplicitRes = "" :=
  ⟨(claim_fallback_amended.1 [exDynDetail]).1 exDynDetail,
   claim_fallback_amended.2.1 exDynRes [exDynDetail] rfl (by decide),
   claim_fallback_amended.2.2.1 exImplicitRes (Or.inr rfl)⟩

/-- C4 counterexample: a detail with Dynamic evaluation and
RequiresRecreation Never is a replacement cause by the extraction test,
but the highlight flag of the all-property-changes listing is false for
it and its rendered line carries no warning marker, in both report
variants: the highlight test is not the extraction test. -/
theorem claim_highlight_counterexample :
    causePred exDynDetail = true ∧
    exDynDetail ∈ replacementCauses [exDynDetail] ∧
    highlightPred exDynDetail = false ∧
    allPropertyChangeLine exDynDetail =
      "       - \x1b[97mPort:\x1b[0m DirectModification (\x1b[90mProperties\x1b[0m)\n" ∧
    prAllChangeLine exDynDetail = "  - Port: DirectModification (Properties)\n" := by
  decide

/-- C4 amended: the is-replacement-cause highlight flag used by the
all-property-changes listings of both renderers is true exactly when
RequiresRecreation is Always or Conditionally; the evaluation field is
not consulted, so the flag differs from the cause-extraction test
precisely on details with Dynamic evaluation whose RequiresRecreation
is neither Always nor Conditionally. -/
theorem claim_highlight_amended (d : Detail) :
    (highlightPred d = true ↔
       d.Target.RequiresRecreation = "Always" ∨
       d.Target.RequiresRecreation = "Conditionally") ∧
    causePred d = (d.Evaluation == "Dynamic" || highlightPred d) ∧
    ((causePred d = true ∧ highlightPred d = false) ↔
       (d.Evaluation = "Dynamic" ∧ d.Target.RequiresRecreation ≠ "Always" ∧
        d.Target.RequiresRecreation ≠ "Conditionally")) := by
  refine ⟨?_, ?_, ?_⟩
  · simp [highlightPred, Bool.or_eq_true, beq_iff_eq]
  · cases h1 : (d.Evaluation == "Dynamic") <;>
      cases h2 : (d.Target.RequiresRecreation == "Always") <;>
        cases h3 : (d.Target.RequiresRecreation == "Conditionally") <;>
          simp [causePred, highlightPred, h1, h2, h3]
  · simp only [causePred, highlightPred, Bool.or_eq_true, Bool.or_eq_false_iff,
      beq_iff_eq, beq_eq_false_iff_ne, ne_eq]
    constructor
    · rintro ⟨(h1 | h1) | h1, h2, h3⟩
      · exact ⟨h1, h2, h3⟩
      · exact absurd h1 h2
      · exact absurd h1 h3
    · rintro ⟨h1, h2, h3⟩
      exact ⟨Or.inl (Or.inl h1), h2, h3⟩

/-- C5 counterexample: a non-empty changeset whose single resource
change is missing `Action` makes the console renderer throw (the width
computation reads `resource.Action.length`), modelled by `none`; absent
`Replacement` and `Details` on the very same change do not contribute
to the failure, and the markdown renderer does not throw on it. -/
theorem claim_nothrow_counterexample :
    exNoActionRes.Action = none ∧
    exNoActionCs.Changes = some [exNoActionChange] ∧
    generateActionReport exNoActionCs = none :=
  ⟨rfl, rfl, rfl⟩

/-- C5 amended: rendering treats an absent or null changes list as the
empty sequence (producing the empty-changeset report) in both
renderers, treats absent `Replacement` and `Details` as defaults, and
never throws provided every change carries an `Action`; the console
renderer does throw when a change in a non-empty list is missing
`Action`. -/
theorem claim_nothrow_amended :
    (∀ cs : Changeset, cs.Changes = none →
       generateActionReport cs =
         some (reportTitle ++ summaryBlock 0 (classify 0 []) ++ "No changes detected.\n")) ∧
    (∀ cs : Changeset,
       (∀ c ∈ cs.Changes.getD [], (c.ResourceChange.Action).isSome = true) →
       (generateActionReport cs).isSome = true) ∧
    (∀ cs : Changeset, cs.Changes = none →
       generatePRReport cs =
         prHeader cs ++ prSummary 0 (classifyPR 0 []) ++ "No changes detected.\n") := by
  refine ⟨?_, ?_, ?_⟩
  · intro cs h
    simp [generateActionReport, h]
  · intro cs h
    simp only [generateActionReport]
    by_cases hlen : 0 < (cs.Changes.getD []).length
    · rw [if_pos hlen]
      have hw := computeMaxWidths_isSome (cs.Changes.getD []) h initColWidths
      cases hcw : computeMaxWidths initColWidths (cs.Changes.getD []) with
      | none => rw [hcw] at hw; cases hw
      | some w0 => simp [actionTable, computeColWidths, hcw]
    · rw [if_neg hlen]
      rfl
  · intro cs h
    simp [generatePRReport, h]

/-- Witness for C5 amended at a changeset with absent changes and at a
one-change changeset whose optional fields are all present. -/
theorem claim_nothrow_amended_witness :
    generateActionReport exEmptyCs =
      some (reportTitle ++ summaryBlock 0 (classify 0 []) ++ "No changes detected.\n") ∧
    (generateActionReport exAddCs).isSome = true ∧
    generatePRReport exEmptyCs =
      prHeader exEmptyCs ++ prSummary 0 (classifyPR 0 []) ++ "No changes detected.\n" :=
  ⟨claim_nothrow_amended.1 exEmptyCs rfl,
   claim_nothrow_amended.2.1 exAddCs (by decide),
   claim_nothrow_amended.2.2 exEmptyCs rfl⟩

/-- C6: when the change list is empty the report carries the single
literal line No changes detected and no table; when it is non-empty the
report carries the All Changes table whose data rows are exactly one
per change in original order, each headed by its 1-based index, and a
row with an absent replacement renders exactly like one whose
replacement is the explicit text N/A. -/
theorem claim_overview_table (cs : Changeset) :
    (cs.Changes.getD [] = [] →
       generateActionReport cs =
         some (reportTitle ++ summaryBlock 0 (classify 0 []) ++ "No changes detected.\n")) ∧
    (∀ (changes : List Change) (w : ColWidths),
       cs.Changes.getD [] = changes → changes ≠ [] →
       computeColWidths changes = some w →
       generateActionReport cs =
         some (reportTitle ++ summaryBlock changes.length (classify 0 changes) ++
           ("\x1b[97m\x1b[1m── All Changes ──\x1b[0m\n\n" ++ tableHeaderRow w ++
            tableSeparatorRow w ++ String.join (actionTableRows w changes)) ++
           actionDetailSections (classify 0 changes))) ∧
    (∀ (w : ColWidths) (changes : List Change),
       (actionTableRows w changes).length = changes.length) ∧
    (∀ (w : ColWidths) (changes : List Change) (k : Nat),
       (actionTableRows w changes).get? k =
         (changes.get? k).map (fun c => actionTableRow w k c)) ∧
    (∀ (w : ColWidths) (i : Nat) (c : Change),
       actionTableRow w i c =
         "\x1b[97m| " ++ toString (i + 1) ++ " |\x1b[0m " ++ rowCells w c) ∧
    (∀ (w : ColWidths) (c : Change), c.ResourceChange.Replacement = none →
       rowCells w c = rowCells w (setReplacement c (some "N/A"))) := by
  refine ⟨?_, ?_, ?_, ?_, fun w i c => rfl, ?_⟩
  · intro h
    simp [generateActionReport, h]
  · intro changes w hch hne hw
    have hlen : 0 < changes.length := List.length_pos.mpr hne
    simp only [generateActionReport, hch]
    rw [if_pos hlen]
    simp [actionTable, hw]
  · intro w changes
    simp [actionTableRows, enumFrom_length]
  · intro w changes k
    simp only [actionTableRows, List.get?_map, enumFrom_get?]
    cases changes.get? k <;> simp [actionTableRow, Nat.zero_add]
  · intro w c h
    obtain ⟨⟨lid, rty, act, rep, det⟩⟩ := c
    change rep = none at h
    subst h
    rfl

/-- Witness for C6 at an absent-changes changeset and at a one-change
changeset with concrete computed widths. -/
theorem claim_overview_table_witness :
    generateActionReport exEmptyCs =
      some (reportTitle ++ summaryBlock 0 (classify 0 []) ++ "No changes detected.\n") ∧
    generateActionReport exAddCs =
      some (reportTitle ++ summaryBlock 1 (classify 0 [exAddChange]) ++
        ("\x1b[97m\x1b[1m── All Changes ──\x1b[0m\n\n" ++ tableHeaderRow ⟨14, 17, 8, 13⟩ ++
         tableSeparatorRow ⟨14, 17, 8, 13⟩ ++
         String.join (actionTableRows ⟨14, 17, 8, 13⟩ [exAddChange])) ++
        actionDetailSections (classify 0 [exAddChange])) ∧
    rowCells ⟨14, 17, 8, 13⟩ exNoActionChange =
      rowCells ⟨14, 17, 8, 13⟩ (setReplacement exNoActionChange (some "N/A")) :=
  ⟨(claim_overview_table exEmptyCs).1 rfl,
   (claim_overview_table exAddCs).2.1 [exAddChange] ⟨14, 17, 8, 13⟩ rfl (by decide) (by decide),
   (claim_overview_table exAddCs).2.2.2.2.2 ⟨14, 17, 8, 13⟩ exNoActionChange rfl⟩

/-- C7: the detail sections appear in the fixed order replaced,
modified in place, new, removed; each section is emitted exactly when
its group is non-empty; within a section the blocks follow the group
order with 0-based local indices rendered as index plus one; and every
removed-resource block ends with the permanent-deletion warning
unconditionally, in both report variants. -/
theorem claim_detail_sections :
    (∀ g : Grouped, actionDetailSections g =
       replacedSection g ++ modifiedSection g ++ newSection g ++ removedSection g) ∧
    (∀ g : Grouped, (replacedSection g = "" ↔ g.willBeReplaced = [])) ∧
    (∀ g : Grouped, (modifiedSection g = "" ↔ g.modifiedWithoutReplacement = [])) ∧
    (∀ g : Grouped, (newSection g = "" ↔ g.newResources = [])) ∧
    (∀ g : Grouped, (removedSection g = "" ↔ g.removedResources = [])) ∧
    (∀ (blockFn : Nat → ResourceChange → String) (entries : List GroupEntry) (k : Nat),
       ((enumFrom 0 entries).map (fun p => blockFn p.1 p.2.resource)).get? k =
         (entries.get? k).map (fun e => blockFn k e.resource)) ∧
    (∀ (li : Nat) (r : ResourceChange),
       removedBlock li r = removedBlockBody li r ++ permanentDeletionWarning ++ "\n") ∧
    (∀ (li : Nat) (r : ResourceChange),
       ∃ body : String, prRemovedBlock li r = body ++ prPermanentDeletionWarning) := by
  refine ⟨fun g => rfl, ?_, ?_, ?_, ?_, ?_, fun li r => rfl, fun li r => ⟨_, rfl⟩⟩
  · intro g
    constructor
    · intro h
      by_contra hne
      have hlen : 0 < g.willBeReplaced.length := List.length_pos.mpr hne
      have heq : replacedSection g =
          "\n\n\x1b[91m\x1b[1m🔴 Resources Requiring Replacement\x1b[0m (" ++
          toString g.willBeReplaced.length ++ ")\n\n" ++
          sectionBlocks replacedBlock g.willBeReplaced := by
        simp only [replacedSection]
        rw [if_pos hlen]
      rw [heq] at h
      exact four_append_ne_empty _ _ _ _ (by decide) h
    · intro h
      simp [replacedSection, h]
  · intro g
    constructor
    · intro h
      by_contra hne
      have hlen : 0 < g.modifiedWithoutReplacement.length := List.length_pos.mpr hne
      have heq : modifiedSection g =
          "\n\n\x1b[93m\x1b[1m🟡 Resources Modified In-Place\x1b[0m (" ++
          toString g.modifiedWithoutReplacement.length ++ ")\n\n" ++
          sectionBlocks modifiedBlock g.modifiedWithoutReplacement := by
        simp only [modifiedSection]
        rw [if_pos hlen]
      rw [heq] at h
      exact four_append_ne_empty _ _ _ _ (by decide) h
    · intro h
      simp [modifiedSection, h]
  · intro g
    constructor
    · intro h
      by_contra hne
      have hlen : 0 < g.newResources.length := List.length_pos.mpr hne
      have heq : newSection g =
          "\n\n\x1b[92m\x1b[1m🟢 New Resources\x1b[0m (" ++
          toString g.newResources.length ++ ")\n\n" ++
          sectionBlocks newBlock g.newResources := by
        simp only [newSection]
        rw [if_pos hlen]
      rw [heq] at h
      exact four_append_ne_empty _ _ _ _ (by decide) h
    · intro h
      simp [newSection, h]
  · intro g
    constructor
    · intro h
      by_contra hne
      have hlen : 0 < g.removedResources.length := List.length_pos.mpr hne
      have heq : removedSection g =
          "\n\n\x1b[31m\x1b[1m⛔ Resources Being Removed\x1b[0m (" ++
          toString g.removedResources.length ++ ")\n\n" ++
          sectionBlocks removedBlock g.removedResources := by
        simp only [removedSection]
        rw [if_pos hlen]
      rw [heq] at h
      exact four_append_ne_empty _ _ _ _ (by decide) h
    · intro h
      simp [removedSection, h]
  · intro blockFn entries k
    simp only [List.get?_map, enumFrom_get?]
    cases entries.get? k <;> simp [Nat.zero_add]

/-- C8: a successful column-width computation yields, for every column,
exactly the maximum content width over the header and all rows plus the
fixed 2-character padding, and is therefore at least every cell content
width plus the padding. -/
theorem claim_column_widths (changes : List Change) (w : ColWidths)
    (h : computeColWidths changes = some w) :
    (w.resource = maxList ("Resource".length :: changes.map resourceContentLen) + tablePadding ∧
     w.type = maxList ("Type".length :: changes.map typeContentLen) + tablePadding ∧
     w.action = maxList ("Action".length :: changes.map actionContentLen) + tablePadding ∧
     w.replacement =
       maxList ("Replacement".length :: changes.map replacementContentLen) + tablePadding) ∧
    (∀ c ∈ changes,
       resourceContentLen c + tablePadding ≤ w.resource ∧
       typeContentLen c + tablePadding ≤ w.type ∧
       actionContentLen c + tablePadding ≤ w.action ∧
       replacementContentLen c + tablePadding ≤ w.replacement) := by
  obtain ⟨w0, hw0, hpad⟩ :
      ∃ w0 : ColWidths, computeMaxWidths initColWidths changes = some w0 ∧
        w = ColWidths.mk (w0.resource + tablePadding) (w0.type + tablePadding)
              (w0.action + tablePadding) (w0.replacement + tablePadding) := by
    cases hcw : computeMaxWidths initColWidths changes with
    | none =>
      simp only [computeColWidths, hcw, Option.map_none'] at h
      exact Option.noConfusion h
    | some w0 =>
      refine ⟨w0, rfl, ?_⟩
      simp only [computeColWidths, hcw, Option.map_some'] at h
      exact (Option.some.inj h).symm
  have he := computeMaxWidths_eq changes initColWidths w0 hw0
  have hres : w.resource = maxList ("Resource".length :: changes.map resourceContentLen) + tablePadding := by
    rw [hpad]
    simp [maxList, he.1, initColWidths]
  have hty : w.type = maxList ("Type".length :: changes.map typeContentLen) + tablePadding := by
    rw [hpad]
    simp [maxList, he.2.1, initColWidths]
  have hac : w.action = maxList ("Action".length :: changes.map actionContentLen) + tablePadding := by
    rw [hpad]
    simp [maxList, he.2.2.1, initColWidths]
  have hre : w.replacement =
      maxList ("Replacement".length :: changes.map replacementContentLen) + tablePadding := by
    rw [hpad]
    simp [maxList, he.2.2.2, initColWidths]
  refine ⟨⟨hres, hty, hac, hre⟩, ?_⟩
  intro c hc
  refine ⟨?_, ?_, ?_, ?_⟩
  · rw [hres]
    have := le_maxList_of_mem (List.mem_cons_of_mem ("Resource".length) (List.mem_map_of_mem resourceContentLen hc))
    omega
  · rw [hty]
    have := le_maxList_of_mem (List.mem_cons_of_mem ("Type".length) (List.mem_map_of_mem typeContentLen hc))
    omega
  · rw [hac]
    have := le_maxList_of_mem (List.mem_cons_of_mem ("Action".length) (List.mem_map_of_mem actionContentLen hc))
    omega
  · rw [hre]
    have := le_maxList_of_mem (List.mem_cons_of_mem ("Replacement".length) (List.mem_map_of_mem replacementContentLen hc))
    omega

/-- Witness for C8 at a one-change list: the computed widths 14, 17, 8,
13 are the column maxima plus padding and bound the row contents. -/
theorem claim_column_widths_witness :
    (ColWidths.mk 14 17 8 13).resource =
      maxList ("Resource".length :: [exAddChange].map resourceContentLen) + tablePadding ∧
    resourceContentLen exAddChange + tablePadding ≤ (ColWidths.mk 14 17 8 13).resource ∧
    replacementContentLen exAddChange + tablePadding ≤
      (ColWidths.mk 14 17 8 13).replacement :=
  ⟨(claim_column_widths [exAddChange] ⟨14, 17, 8, 13⟩ (by decide)).1.1,
   ((claim_column_widths [exAddChange] ⟨14, 17, 8, 13⟩ (by decide)).2 exAddChange
      (List.mem_singleton.mpr rfl)).1,
   ((claim_column_widths [exAddChange] ⟨14, 17, 8, 13⟩ (by decide)).2 exAddChange
      (List.mem_singleton.mpr rfl)).2.2.2⟩

end CfnReporter
